import Mathlib

set_option maxRecDepth 8000

namespace YarnIsolate

/-- Errors surfaced by the embedded code: a JavaScript TypeError (e.g. iterating
an undefined value), a failed `invariant(...)` assertion, and a user-facing
`MessageError`. -/
inductive JsError where
  | typeError : JsError
  | invariantViolation : String → JsError
  | messageError : String → JsError
deriving DecidableEq

/-- A dependency request handed to the installer pipeline, as built by
`prepareRequests`. -/
structure DepRequest where
  pattern : String
  registry : String
  optional : Bool
deriving DecidableEq

/-- The three registry dependency-type buckets used by the folding step. -/
inductive DepType where
  | dependencies
  | devDependencies
  | optionalDependencies
deriving DecidableEq

/-- The `_reference` object attached to a resolved package: its registry and the
dependency-pattern backlink list the linker walks. -/
structure PackageReference where
  registry : String
  dependencies : List String
deriving DecidableEq

/-- A resolved package manifest. The three dependency buckets are `Option` to
mirror JavaScript objects where a bucket may be absent (`undefined`) before the
code runs `manifest[type] = manifest[type] || {}`. -/
structure Manifest where
  name : String
  version : String
  dependencies : Option (List (String × String))
  devDependencies : Option (List (String × String))
  optionalDependencies : Option (List (String × String))
  reference : Option PackageReference
deriving DecidableEq

def getBucket (m : Manifest) : DepType → Option (List (String × String))
  | DepType.dependencies => m.dependencies
  | DepType.devDependencies => m.devDependencies
  | DepType.optionalDependencies => m.optionalDependencies

def setBucket (m : Manifest) (t : DepType) (v : Option (List (String × String))) : Manifest :=
  match t with
  | DepType.dependencies => { m with dependencies := v }
  | DepType.devDependencies => { m with devDependencies := v }
  | DepType.optionalDependencies => { m with optionalDependencies := v }

def setReference (m : Manifest) (r : Option PackageReference) : Manifest :=
  { m with reference := r }

/-- The entries of a dependency bucket, with an absent bucket read as empty
(the JavaScript `manifest[type] || ` empty-object idiom). -/
def bucketEntries (m : Manifest) (t : DepType) : List (String × String) :=
  (getBucket m t).getD []

/-- JavaScript `manifest[dependencyType][pkgName]` on the assoc-list model. -/
def lookupDep (bucket : List (String × String)) (key : String) : Option String :=
  (bucket.find? (fun e => e.1 == key)).map (fun e => e.2)

/-- The dependency-reference backlink list of a manifest (`_reference.dependencies`),
empty when the reference is absent. -/
def refDeps (m : Manifest) : List String :=
  match m.reference with
  | some r => r.dependencies
  | none => []

/- ### String helpers over the character-list model -/

def breakAtChar (c : Char) : List Char → (List Char × Option (List Char))
  | [] => ([], none)
  | x :: xs =>
    if x == c then ([], some xs)
    else
      let r := breakAtChar c xs
      (x :: r.1, r.2)

def charsSplitOn (c : Char) : List Char → List (List Char)
  | [] => [[]]
  | x :: xs =>
    let r := charsSplitOn c xs
    if x == c then [] :: r
    else
      match r with
      | [] => [[x]]
      | h :: t => (x :: h) :: t

def charDigit (c : Char) : Nat := c.toNat - 48

def digitsToNat : List Char → Nat → Nat
  | [], acc => acc
  | c :: cs, acc => digitsToNat cs (acc * 10 + charDigit c)

/-- Modelled from the spec: strict decimal parsing used by the semver
collaborator (a concrete version component is a nonempty digit string without
leading zeros). -/
def parseNatChars (l : List Char) : Option Nat :=
  match l with
  | [] => none
  | '0' :: _ :: _ => none
  | _ => if l.all Char.isDigit then some (digitsToNat l 0) else none

/-- Modelled from the spec: the semver collaborator's notion of a concrete
version, a dotted triple `major.minor.patch` of strict decimal numbers. -/
def parseSemverChars (l : List Char) : Option (Nat × Nat × Nat) :=
  match charsSplitOn '.' l with
  | [a, b, c] =>
    match parseNatChars a, parseNatChars b, parseNatChars c with
    | some x, some y, some z => some (x, y, z)
    | _, _, _ => none
  | _ => none

/-- Modelled from the spec: `semver.valid` — the string is a concrete version. -/
def semverValid (s : String) : Bool := (parseSemverChars s.data).isSome

def verGe (v b : Nat × Nat × Nat) : Bool :=
  if v.1 == b.1 then
    if v.2.1 == b.2.1 then decide (b.2.2 ≤ v.2.2)
    else decide (b.2.1 < v.2.1)
  else decide (b.1 < v.1)

def caretSat (v b : Nat × Nat × Nat) : Bool :=
  verGe v b &&
    (if 0 < b.1 then v.1 == b.1
     else if 0 < b.2.1 then v.1 == 0 && v.2.1 == b.2.1
     else v == b)

def tildeSat (v b : Nat × Nat × Nat) : Bool :=
  verGe v b && v.1 == b.1 && v.2.1 == b.2.1

/-- Modelled from the spec: `semver.satisfies` for the range shapes this core
produces and consumes — `*`, caret ranges, tilde ranges and concrete versions. -/
def semverSatisfies (version range : String) : Bool :=
  match parseSemverChars version.data with
  | none => false
  | some v =>
    match range.data with
    | ['*'] => true
    | '^' :: rest =>
      match parseSemverChars rest with
      | some b => caretSat v b
      | none => false
    | '~' :: rest =>
      match parseSemverChars rest with
      | some b => tildeSat v b
      | none => false
    | l =>
      match parseSemverChars l with
      | some b => v == b
      | none => false

/-- Result of yarn's `normalizePattern` utility. -/
structure NormalizedPattern where
  name : String
  range : String
  hasVersion : Bool
deriving DecidableEq

/-- Modelled from the spec: yarn's `normalizePattern` utility (not under src) —
a Pattern is a string `name@versionSpecifier`; a leading `@` marks a scoped name
and the split happens at the first `@` after it, the remainder being the
embedded range (`latest` when there is no `@`, `*` when the range is empty). -/
def normalizePattern (pattern : String) : NormalizedPattern :=
  let scopedBody :=
    match pattern.data with
    | '@' :: rest => (true, rest)
    | l => (false, l)
  match breakAtChar '@' scopedBody.2 with
  | (_, none) => ⟨pattern, "latest", false⟩
  | (namePart, some rest) =>
    let fullName : String := if scopedBody.1 then ⟨'@' :: namePart⟩ else ⟨namePart⟩
    if rest.isEmpty then ⟨fullName, "*", false⟩
    else ⟨fullName, ⟨rest⟩, true⟩

/-- Modelled from the spec: `getExoticResolver` (not under src) recognizes a
specifier resolved by a non-registry mechanism — a local path, URL or VCS
reference — by its leading marker. -/
def getExoticResolver (pattern : String) : Bool :=
  (["git+", "git:", "github:", "gitlab:", "gist:", "bitbucket:",
    "http:", "https:", "file:", "link:", "./", "../", "/"].map String.data).any
    (fun m => m.isPrefixOf pattern.data)

/-- The version-policy configuration consumed by `getPatternVersion`:
the `tilde` and `exact` flags, the `save-exact` option and the `save-prefix`
option. -/
structure VersionFlags where
  tilde : Bool
  exact : Bool
  saveExact : Bool
  savePfx : String
deriving DecidableEq

/-- `Isolate.getPatternVersion`: returns the version specifier to record for a
pattern based on the resolved manifest. -/
def getPatternVersion (flags : VersionFlags) (pattern : String) (pkg : Manifest) : String :=
  let configPrefixEmpty := flags.savePfx == ""
  let exactMode := flags.exact || flags.saveExact || configPrefixEmpty
  let np := normalizePattern pattern
  let version0 : Option String :=
    if getExoticResolver pattern then some pattern
    else if np.hasVersion && !(np.range == "") &&
        (semverSatisfies pkg.version np.range || getExoticResolver np.range) then
      some np.range
    else none
  match version0 with
  | some v =>
    if semverValid v then (if flags.tilde then "~" else "") ++ pkg.version
    else v
  | none =>
    let pfx :=
      if flags.tilde then "~"
      else if exactMode then ""
      else if configPrefixEmpty then "^" else flags.savePfx
    pfx ++ pkg.version

/- ### Sibling discovery (`init`, `setSiblingWorkspaces`) -/

/-- The pure core of `setSiblingWorkspaces`: every workspace of the resolved
WorkspaceSet other than the current one, rendered `name@resolvedVersion`. -/
def siblingWorkspacesOf (allWorkspaces : List (String × String)) (currentWorkspace : String) :
    List String :=
  (allWorkspaces.filter (fun w => w.1 != currentWorkspace)).map (fun w => w.1 ++ "@" ++ w.2)

def joinPath (a b : String) : String := a ++ "/" ++ b

def fsExists (fsPaths : List String) (p : String) : Bool := fsPaths.contains p

/-- The registry loop of `setSiblingWorkspaces`: try each registry filename in
order, keeping the first whose manifest exists at both the lockfile folder and
the cwd; also returns the trace of `fs.exists` checks performed. -/
def findRegistryLoop (fsPaths : List String) (rootFolder cwd : String) :
    List String → (Option (String × String) × List String)
  | [] => (none, [])
  | filename :: rest =>
    let rootLoc := joinPath rootFolder filename
    let workspaceLoc := joinPath cwd filename
    if fsExists fsPaths rootLoc then
      if fsExists fsPaths workspaceLoc then
        (some (rootLoc, workspaceLoc), [rootLoc, workspaceLoc])
      else
        let r := findRegistryLoop fsPaths rootFolder cwd rest
        (r.1, rootLoc :: workspaceLoc :: r.2)
    else
      let r := findRegistryLoop fsPaths rootFolder cwd rest
      (r.1, rootLoc :: r.2)

/-- Outcome of `setSiblingWorkspaces`: the value of `this.siblingWorkspaces`
afterwards (`none` models the field left `undefined`), whether the
`no sibling workspaces` warning was printed, and the I/O reads performed. -/
structure DiscoveryResult where
  siblingWorkspaces : Option (List String)
  warned : Bool
  reads : List String
deriving DecidableEq

/-- `Isolate.setSiblingWorkspaces`. The manifest parsing and workspace
resolution collaborators are abstracted as the already-resolved
`rootWorkspaces` map and the current workspace name. On a discovery miss the
method returns after warning, leaving `this.siblingWorkspaces` unassigned. -/
def setSiblingWorkspaces (fsPaths registryFilenames : List String)
    (lockfileFolder cwd : String) (rootWorkspaces : List (String × String))
    (currentWorkspace : String) : DiscoveryResult :=
  match findRegistryLoop fsPaths lockfileFolder cwd registryFilenames with
  | (none, tr) => ⟨none, true, tr⟩
  | (some (rootLoc, workspaceLoc), tr) =>
    ⟨some (siblingWorkspacesOf rootWorkspaces currentWorkspace), false,
      tr ++ [rootLoc, workspaceLoc]⟩

structure InitConfig where
  lockfileFolder : String
  cwd : String
  workspaceRootFolder : Option String
deriving DecidableEq

structure InitOutcome where
  result : Except JsError Unit
  siblingWorkspaces : Option (List String)
  warned : Bool
  reads : List String

/-- `Isolate.init` up to the delegation to the generic installer: the root
check throws a `MessageError` before sibling discovery runs; otherwise
discovery executes and records its state. -/
def init (config : InitConfig) (fsPaths registryFilenames : List String)
    (rootWorkspaces : List (String × String)) (currentWorkspace : String) : InitOutcome :=
  let isRoot :=
    match config.workspaceRootFolder with
    | some root => config.cwd == root
    | none => false
  if isRoot then
    ⟨Except.error (JsError.messageError "workspacesIsolateRootCheck"), none, false, []⟩
  else
    let d := setSiblingWorkspaces fsPaths registryFilenames config.lockfileFolder config.cwd
      rootWorkspaces currentWorkspace
    ⟨Except.ok (), d.siblingWorkspaces, d.warned, d.reads⟩

/- ### Request injection (`prepareRequests`) -/

/-- `Isolate.prepareRequests`: copy the base requests and append one request per
sibling pattern. Iterating an unassigned `this.siblingWorkspaces` throws a
TypeError, modelled by the `none` case. -/
def prepareRequests (siblingWorkspaces : Option (List String)) (requests : List DepRequest) :
    Except JsError (List DepRequest) :=
  match siblingWorkspaces with
  | none => Except.error JsError.typeError
  | some sibs => Except.ok (requests ++ sibs.map (fun w => ⟨w, "npm", false⟩))

/- ### Pattern canonicalization (`preparePatterns`) -/

/-- One iteration of the `preparePatterns` loop: resolve the sibling pattern,
recompute its canonical `name@version`, push it, and record a
`resolver.replacePattern` call unless the canonical pattern equals the
provisional one. -/
def canonicalStep (flags : VersionFlags) (resolver : String → Option Manifest)
    (acc : List String × List (String × String)) (pattern : String) :
    Except JsError (List String × List (String × String)) :=
  match resolver pattern with
  | none => Except.error JsError.typeError
  | some pkg =>
    let version := getPatternVersion flags pattern pkg
    let newPattern := pkg.name ++ "@" ++ version
    let pats := acc.1 ++ [newPattern]
    if newPattern == pattern then Except.ok (pats, acc.2)
    else Except.ok (pats, acc.2 ++ [(pattern, newPattern)])

def canonAll (flags : VersionFlags) (resolver : String → Option Manifest) :
    List String → (List String × List (String × String)) →
    Except JsError (List String × List (String × String))
  | [], acc => Except.ok acc
  | s :: rest, acc =>
    match canonicalStep flags resolver acc s with
    | Except.error e => Except.error e
    | Except.ok acc' => canonAll flags resolver rest acc'

/-- `Isolate.preparePatterns`: returns the extended pattern list together with
the trace of `replacePattern` aliasing calls performed. -/
def preparePatterns (flags : VersionFlags) (resolver : String → Option Manifest)
    (siblingWorkspaces : Option (List String)) (patterns : List String) :
    Except JsError (List String × List (String × String)) :=
  match siblingWorkspaces with
  | none => Except.error JsError.typeError
  | some sibs => canonAll flags resolver sibs (patterns, [])

/- ### Manifest folding (`preparePatternsForLinking`, `_iterateAddedPackages`) -/

/-- The context threaded through the linking hooks: version flags, the
resolver's pattern table, `rootPatternsToOrigin` and `flagToOrigin`. -/
structure LinkCtx where
  flags : VersionFlags
  getResolvedPattern : String → Option Manifest
  rootPatternsToOrigin : List (String × DepType)
  flagToOrigin : DepType

/-- The dependency-type lookup of `_iterateAddedPackages`: reduce over the
pattern origins, the last origin pattern starting with `name@` winning. -/
def depTypeOf (rootPatternsToOrigin : List (String × DepType)) (pkgName : String) :
    Option DepType :=
  rootPatternsToOrigin.foldl
    (fun acc pr => if ((pkgName ++ "@").data.isPrefixOf pr.1.data) then some pr.2 else acc)
    none

structure LinkState where
  patterns : List String
  manifest : Manifest
deriving DecidableEq

/-- One sibling step of `_iterateAddedPackages` together with the callback body
of `preparePatternsForLinking`: filter the sibling pattern out of the list
(asserting it was present), ensure the dependency bucket exists, and — unless
the manifest already records the sibling at this exact version — push the
pattern onto the manifest reference's backlink list. -/
def addSibling (ctx : LinkCtx) (st : LinkState) (pattern : String) : Except JsError LinkState :=
  match ctx.getResolvedPattern pattern with
  | none => Except.error (JsError.invariantViolation "missing package")
  | some pkg =>
    match pkg.reference with
    | none => Except.error (JsError.invariantViolation "expected package reference")
    | some _ =>
      let version := getPatternVersion ctx.flags pattern pkg
      let target := (depTypeOf ctx.rootPatternsToOrigin pkg.name).getD ctx.flagToOrigin
      let filtered := st.patterns.filter (fun p => p != pattern)
      if st.patterns.length - filtered.length > 0 then
        let entries := bucketEntries st.manifest target
        let m1 := setBucket st.manifest target (some entries)
        if lookupDep entries pkg.name == some version then
          Except.ok ⟨filtered, m1⟩
        else
          match m1.reference with
          | none => Except.error (JsError.invariantViolation "manifest._reference should not be null")
          | some mref =>
            Except.ok ⟨filtered,
              setReference m1 (some ⟨mref.registry, mref.dependencies ++ [pattern]⟩)⟩
      else Except.error (JsError.invariantViolation "expect added pattern in the list")

def addAll (ctx : LinkCtx) : List String → LinkState → Except JsError LinkState
  | [], st => Except.ok st
  | s :: rest, st =>
    match addSibling ctx st s with
    | Except.error e => Except.error e
    | Except.ok st' => addAll ctx rest st'

/-- Result of `preparePatternsForLinking`: the outgoing pattern list, the
rewritten in-memory manifest of the install target when folding happened, and
any warnings reported. -/
structure LinkResult where
  patterns : List String
  manifest : Option Manifest
  warnings : List String
deriving DecidableEq

/-- `Isolate.preparePatternsForLinking`: no-op for the root target; warn and
return the patterns unchanged when the target's own resolved package is
unknown; otherwise fold every sibling via `_iterateAddedPackages`. -/
def preparePatternsForLinking (ctx : LinkCtx) (siblingWorkspaces : Option (List String))
    (patterns : List String) (cwdManifest : Manifest) (cwdIsRoot : Bool) :
    Except JsError LinkResult :=
  if cwdIsRoot then Except.ok ⟨patterns, none, []⟩
  else
    let cwdPackage := cwdManifest.name ++ "@" ++ cwdManifest.version
    match ctx.getResolvedPattern cwdPackage with
    | none => Except.ok ⟨patterns, none, ["unknownPackage " ++ cwdPackage]⟩
    | some m =>
      match siblingWorkspaces with
      | none => Except.error JsError.typeError
      | some sibs =>
        match addAll ctx sibs ⟨patterns, m⟩ with
        | Except.error e => Except.error e
        | Except.ok st => Except.ok ⟨st.patterns, some st.manifest, []⟩

/- ### Lockfile bailout -/

structure WorkspaceLayout where
  workspaces : List (String × String)
deriving DecidableEq

/-- `Isolate.bailout`: the lockfile-integrity bailout is unconditionally
disabled. -/
def bailout (patterns : List String) (workspaceLayout : Option WorkspaceLayout) : Bool :=
  false

/- ### Concrete scenario: root workspaces a@1.0.0, b@2.0.0, c@3.0.0, installing b -/

/-- Default version flags: `tilde=false`, `exact=false`, `save-exact=false`,
`save-prefix="^"`. -/
def cfgDefault : VersionFlags := ⟨false, false, false, "^"⟩

def cfgExact : VersionFlags := ⟨false, true, false, "^"⟩

def pkgA : Manifest := ⟨"a", "1.0.0", none, none, none, some ⟨"npm", []⟩⟩

def pkgC : Manifest := ⟨"c", "3.0.0", none, none, none, some ⟨"npm", []⟩⟩

def manifestB : Manifest := ⟨"b", "2.0.0", none, none, none, some ⟨"npm", []⟩⟩

def pkg231 : Manifest := ⟨"sibling", "2.3.1", none, none, none, some ⟨"npm", []⟩⟩

def scenarioWorkspaces : List (String × String) :=
  [("a", "1.0.0"), ("b", "2.0.0"), ("c", "3.0.0")]

def scenarioSiblings : List String := siblingWorkspacesOf scenarioWorkspaces "b"

def scenarioResolver : String → Option Manifest := fun p =>
  if p == "a@1.0.0" then some pkgA
  else if p == "c@3.0.0" then some pkgC
  else if p == "b@2.0.0" then some manifestB
  else none

def scenarioCtx : LinkCtx := ⟨cfgDefault, scenarioResolver, [], DepType.dependencies⟩

/-- The in-memory manifest of `b` after folding in the scenario: the
`dependencies` bucket was created empty and both sibling patterns were pushed
onto the reference backlink list. -/
def foldedManifestB : Manifest :=
  ⟨"b", "2.0.0", some [], none, none, some ⟨"npm", ["a@1.0.0", "c@3.0.0"]⟩⟩

/-- A link context whose resolver knows no pattern at all, used to exhibit the
unknown-target degradation. -/
def emptyResolverCtx : LinkCtx := ⟨cfgDefault, fun _ => none, [], DepType.dependencies⟩

/-- Per-sibling precondition of the folding loop, expressed on the loop state:
the sibling pattern resolves to a package carrying a reference, the target
manifest carries a reference, the pattern is present in the pattern list and
not yet in the backlink list, and the manifest does not already record the
sibling at its canonical version. -/
def stepReady (ctx : LinkCtx) (st : LinkState) (pattern : String) : Bool :=
  match ctx.getResolvedPattern pattern with
  | none => false
  | some pkg =>
    pkg.reference.isSome && st.manifest.reference.isSome &&
      decide (pattern ∈ st.patterns) &&
      decide (pattern ∉ refDeps st.manifest) &&
      decide (lookupDep
          (bucketEntries st.manifest
            ((depTypeOf ctx.rootPatternsToOrigin pkg.name).getD ctx.flagToOrigin))
          pkg.name ≠ some (getPatternVersion ctx.flags pattern pkg))

/- ### Claim theorems -/

/-- C10: the lockfile-integrity bailout is unconditionally disabled — for every
patterns argument and every workspace layout, `bailout` returns false, so an
isolate run never takes the lockfile/integrity short-circuit of the generic
installer. -/
theorem C10_bailout_disabled (patterns : List String)
    (workspaceLayout : Option WorkspaceLayout) :
    bailout patterns workspaceLayout = false := rfl

theorem C10_bailout_disabled_witness :
    bailout ["a@1.0.0"] (some ⟨[("a", "1.0.0")]⟩) = false :=
  C10_bailout_disabled ["a@1.0.0"] (some ⟨[("a", "1.0.0")]⟩)

/-- C7: `prepareRequests` returns the base requests first, unchanged and in
order, followed by exactly one appended request per sibling pattern in
discovery order, each with registry npm and optional false; as a pure function
it is identical across repeated runs on the same inputs. -/
theorem C7_request_injection (sibs : List String) (base : List DepRequest) :
    ∃ out, prepareRequests (some sibs) base = Except.ok out
      ∧ out.take base.length = base
      ∧ (out.drop base.length).map (fun r => r.pattern) = sibs
      ∧ (∀ r ∈ out.drop base.length, r.registry = "npm" ∧ r.optional = false)
      ∧ out.length = base.length + sibs.length := by
  refine ⟨base ++ sibs.map (fun w =>
      ({ pattern := w, registry := "npm", optional := false } : DepRequest)), rfl, ?_, ?_, ?_, ?_⟩
  · simp
  · rw [List.drop_left]
    induction sibs with
    | nil => rfl
    | cons w ws ihw =>
      simp only [List.map_cons]
      rw [ihw]
  · intro r hr
    simp only [List.drop_left, List.mem_map] at hr
    obtain ⟨w, _, rfl⟩ := hr
    exact ⟨rfl, rfl⟩
  · simp

theorem C7_request_injection_witness :
    ∃ out, prepareRequests (some scenarioSiblings) [⟨"lodash@^4.0.0", "npm", false⟩] =
        Except.ok out
      ∧ out.take 1 = [⟨"lodash@^4.0.0", "npm", false⟩]
      ∧ (out.drop 1).map (fun r => r.pattern) = scenarioSiblings
      ∧ (∀ r ∈ out.drop 1, r.registry = "npm" ∧ r.optional = false)
      ∧ out.length = 1 + scenarioSiblings.length :=
  C7_request_injection scenarioSiblings [⟨"lodash@^4.0.0", "npm", false⟩]

/-- C5: when the current working directory is the monorepo root, `init` fails
fast with the `workspacesIsolateRootCheck` MessageError: no sibling discovery
I/O is performed (empty read trace), no warning is printed and the sibling
state is never assigned. -/
theorem C5_root_check (config : InitConfig) (fsPaths registryFilenames : List String)
    (rootWorkspaces : List (String × String)) (currentWorkspace : String) (root : String)
    (hroot : config.workspaceRootFolder = some root) (hcwd : config.cwd = root) :
    init config fsPaths registryFilenames rootWorkspaces currentWorkspace =
      ⟨Except.error (JsError.messageError "workspacesIsolateRootCheck"), none, false, []⟩ := by
  simp [init, hroot, hcwd]

theorem C5_root_check_witness :
    init ⟨"root", "root", some "root"⟩ ["root/package.json"] ["package.json"]
        scenarioWorkspaces "b" =
      ⟨Except.error (JsError.messageError "workspacesIsolateRootCheck"), none, false, []⟩ :=
  C5_root_check ⟨"root", "root", some "root"⟩ ["root/package.json"] ["package.json"]
    scenarioWorkspaces "b" "root" rfl rfl

/-- C6: on a discovery miss (no registry manifest present at both root and
workspace) the code warns but returns without ever assigning
`this.siblingWorkspaces`; the subsequent `prepareRequests`/`preparePatterns`
hooks then throw a TypeError iterating the undefined field instead of
proceeding with an empty sibling list as the spec intends (an assigned empty
list would make `prepareRequests` the identity). -/
theorem C6_discovery_miss :
    setSiblingWorkspaces [] ["package.json"] "root" "root/b" scenarioWorkspaces "b" =
      ⟨none, true, ["root/package.json"]⟩
    ∧ init ⟨"root", "root/b", some "root"⟩ [] ["package.json"] scenarioWorkspaces "b" =
      ⟨Except.ok (), none, true, ["root/package.json"]⟩
    ∧ prepareRequests none [⟨"x@1.0.0", "npm", false⟩] = Except.error JsError.typeError
    ∧ preparePatterns cfgDefault scenarioResolver none [] = Except.error JsError.typeError
    ∧ prepareRequests (some []) [⟨"x@1.0.0", "npm", false⟩] =
        Except.ok [⟨"x@1.0.0", "npm", false⟩] :=
  ⟨rfl, rfl, rfl, rfl, rfl⟩

/-- C4 counterexample: for the pattern `sibling@git+https://github.com/u/r` the
version-policy function does not return the pattern unchanged — it returns only
the embedded exotic range. -/
theorem C4_counterexample :
    getPatternVersion cfgDefault "sibling@git+https://github.com/u/r" pkg231 =
      "git+https://github.com/u/r"
    ∧ "git+https://github.com/u/r" ≠ "sibling@git+https://github.com/u/r" :=
  ⟨rfl, by decide⟩

/-- C4 (amended): with default flags and resolved version 2.3.1 a plain-name
pattern yields `^2.3.1`; with exact=true it yields `2.3.1`; a raw exotic
pattern is returned unchanged while a pattern embedding an exotic range yields
that embedded range verbatim; an embedded satisfied non-concrete range is kept
verbatim, and an embedded satisfied concrete range yields the resolved version
with no prefix applied. -/
theorem C4_version_policy :
    getPatternVersion cfgDefault "sibling" pkg231 = "^2.3.1"
    ∧ getPatternVersion cfgExact "sibling" pkg231 = "2.3.1"
    ∧ getPatternVersion cfgDefault "git+https://github.com/u/r" pkg231 =
        "git+https://github.com/u/r"
    ∧ getPatternVersion cfgDefault "sibling@git+https://github.com/u/r" pkg231 =
        "git+https://github.com/u/r"
    ∧ getPatternVersion cfgDefault "sibling@^2.0.0" pkg231 = "^2.0.0"
    ∧ getPatternVersion cfgDefault "sibling@2.3.1" pkg231 = "2.3.1" :=
  ⟨rfl, rfl, rfl, rfl, rfl, rfl⟩

/-- C2 counterexample: in the a/b/c scenario the sibling patterns are NOT
canonicalized to caret ranges — `a@1.0.0` canonicalizes to itself — and the
folded manifest's dependencies map does not contain `a` at all, let alone at
`^1.0.0`. -/
theorem C2_counterexample :
    preparePatterns cfgDefault scenarioResolver (some scenarioSiblings) [] =
      Except.ok (["a@1.0.0", "c@3.0.0"], [])
    ∧ ["a@1.0.0", "c@3.0.0"] ≠ ["a@^1.0.0", "c@^3.0.0"]
    ∧ lookupDep (bucketEntries foldedManifestB DepType.dependencies) "a" = none
    ∧ (none : Option String) ≠ some "^1.0.0" :=
  ⟨rfl, by decide, rfl, by decide⟩

/-- C2 (amended): in the a/b/c scenario, installing b injects sibling requests
`a@1.0.0` and `c@3.0.0` with registry npm and optional false; canonicalization
maps each sibling pattern to itself (the embedded concrete version is kept with
no prefix) performing no aliasing; folding removes both patterns entirely from
the final pattern list and records them as backlinks on b's package reference,
while b's manifest dependencies bucket is created empty and gains no entries. -/
theorem C2_scenario :
    scenarioSiblings = ["a@1.0.0", "c@3.0.0"]
    ∧ prepareRequests (some scenarioSiblings) [] =
        Except.ok [⟨"a@1.0.0", "npm", false⟩, ⟨"c@3.0.0", "npm", false⟩]
    ∧ preparePatterns cfgDefault scenarioResolver (some scenarioSiblings) [] =
        Except.ok (["a@1.0.0", "c@3.0.0"], [])
    ∧ preparePatternsForLinking scenarioCtx (some scenarioSiblings) ["a@1.0.0", "c@3.0.0"]
        manifestB false = Except.ok ⟨[], some foldedManifestB, []⟩
    ∧ refDeps foldedManifestB = ["a@1.0.0", "c@3.0.0"]
    ∧ bucketEntries foldedManifestB DepType.dependencies = [] :=
  ⟨rfl, rfl, rfl, rfl, rfl, rfl⟩

/-- C8: `preparePatternsForLinking` is the identity on its pattern list and
touches no state in exactly the two degraded cases — a root target, and a
non-root target whose own resolved package cannot be found (where it also logs
the unknownPackage warning). -/
theorem C8_degraded_noop (ctx : LinkCtx) (sibs : Option (List String))
    (patterns : List String) (cwdManifest : Manifest) :
    preparePatternsForLinking ctx sibs patterns cwdManifest true =
      Except.ok ⟨patterns, none, []⟩
    ∧ (ctx.getResolvedPattern (cwdManifest.name ++ "@" ++ cwdManifest.version) = none →
        preparePatternsForLinking ctx sibs patterns cwdManifest false =
          Except.ok ⟨patterns, none,
            ["unknownPackage " ++ (cwdManifest.name ++ "@" ++ cwdManifest.version)]⟩) := by
  constructor
  · rfl
  · intro h
    simp [preparePatternsForLinking, h]

theorem C8_degraded_noop_witness :
    preparePatternsForLinking emptyResolverCtx (some ["s@1.0.0"]) ["x@1.0.0"] manifestB true =
      Except.ok ⟨["x@1.0.0"], none, []⟩
    ∧ preparePatternsForLinking emptyResolverCtx (some ["s@1.0.0"]) ["x@1.0.0"] manifestB false =
      Except.ok ⟨["x@1.0.0"], none, ["unknownPackage " ++ ("b" ++ "@" ++ "2.0.0")]⟩ := by
  have h := C8_degraded_noop emptyResolverCtx (some ["s@1.0.0"]) ["x@1.0.0"] manifestB
  exact ⟨h.1, h.2 rfl⟩

/-- C1 counterexample: in the a/b/c scenario the fold succeeds, yet sibling `a`
appears zero times — not exactly once — in the target manifest's dependency
bucket for its dependency type. -/
theorem C1_counterexample :
    preparePatternsForLinking scenarioCtx (some scenarioSiblings) ["a@1.0.0", "c@3.0.0"]
      manifestB false = Except.ok ⟨[], some foldedManifestB, []⟩
    ∧ (bucketEntries foldedManifestB DepType.dependencies).countP (fun e => e.1 == "a") = 0
    ∧ (0 : Nat) ≠ 1 :=
  ⟨rfl, rfl, by decide⟩

/- ### Lemmas about canonicalization -/

theorem canonAll_alias_ne (flags : VersionFlags) (resolver : String → Option Manifest)
    (sibs : List String) :
    ∀ acc out, canonAll flags resolver sibs acc = Except.ok out →
      (∀ pr ∈ acc.2, pr.1 ≠ pr.2) → ∀ pr ∈ out.2, pr.1 ≠ pr.2 := by
  induction sibs with
  | nil =>
    intro acc out h hacc
    simp only [canonAll] at h
    cases h
    exact hacc
  | cons s rest ih =>
    intro acc out h hacc
    rw [canonAll, canonicalStep] at h
    cases hres : resolver s with
    | none => rw [hres] at h; simp at h
    | some pkg =>
      rw [hres] at h
      simp only at h
      cases hbe : (pkg.name ++ "@" ++ getPatternVersion flags s pkg == s) with
      | true =>
        rw [hbe] at h
        simp only [if_pos rfl] at h
        exact ih _ out h hacc
      | false =>
        rw [hbe] at h
        simp only [Bool.false_eq_true, if_neg] at h
        refine ih _ out h ?_
        intro pr hpr
        rcases List.mem_append.mp hpr with hold | hnew
        · exact hacc pr hold
        · have : pr = (s, pkg.name ++ "@" ++ getPatternVersion flags s pkg) := by
            simpa using hnew
          subst this
          exact fun hEq => (ne_of_beq_false hbe) hEq.symm

theorem canonAll_canonical (flags : VersionFlags) (resolver : String → Option Manifest)
    (sibs : List String) :
    ∀ pats tr,
      (∀ s ∈ sibs, (resolver s).map
        (fun pkg => pkg.name ++ "@" ++ getPatternVersion flags s pkg) = some s) →
      canonAll flags resolver sibs (pats, tr) = Except.ok (pats ++ sibs, tr) := by
  induction sibs with
  | nil => intro pats tr _; simp [canonAll]
  | cons s rest ih =>
    intro pats tr h
    have hs := h s (List.mem_cons_self s rest)
    cases hres : resolver s with
    | none => rw [hres] at hs; simp at hs
    | some pkg =>
      rw [hres] at hs
      simp only [Option.map_some'] at hs
      have hsEq : pkg.name ++ "@" ++ getPatternVersion flags s pkg = s :=
        Option.some_injective _ hs
      rw [canonAll, canonicalStep, hres]
      simp only [hsEq, beq_self_eq_true, if_pos]
      have hrest := ih (pats ++ [s]) tr (fun x hx => h x (List.mem_cons_of_mem s hx))
      rw [hrest]
      simp

/-- C9: canonicalization performs no pattern-table aliasing when the recomputed
canonical pattern equals the existing one — every `replacePattern` call in the
trace has distinct provisional and canonical patterns, and on an
already-canonical sibling list (each sibling's recomputed canonical pattern is
itself, as after a first `preparePatterns` run) the call appends the siblings
with an empty aliasing trace, so a second call is a no-op on the pattern
table. -/
theorem C9_canonicalization_idempotent (flags : VersionFlags)
    (resolver : String → Option Manifest) (sibs : List String) (patterns : List String) :
    (∀ out, preparePatterns flags resolver (some sibs) patterns = Except.ok out →
      ∀ pr ∈ out.2, pr.1 ≠ pr.2)
    ∧ ((∀ s ∈ sibs, (resolver s).map
          (fun pkg => pkg.name ++ "@" ++ getPatternVersion flags s pkg) = some s) →
        preparePatterns flags resolver (some sibs) patterns =
          Except.ok (patterns ++ sibs, [])) := by
  constructor
  · intro out h
    exact canonAll_alias_ne flags resolver sibs (patterns, []) out h (by simp)
  · intro h
    exact canonAll_canonical flags resolver sibs patterns [] h

theorem C9_canonicalization_idempotent_witness :
    preparePatterns cfgDefault scenarioResolver (some scenarioSiblings)
        ["a@1.0.0", "c@3.0.0"] =
      Except.ok (["a@1.0.0", "c@3.0.0"] ++ scenarioSiblings, [])
    ∧ (∀ pr ∈ ([] : List (String × String)), pr.1 ≠ pr.2) := by
  have h := C9_canonicalization_idempotent cfgDefault scenarioResolver scenarioSiblings
    ["a@1.0.0", "c@3.0.0"]
  have h2 := h.2 (by decide)
  exact ⟨h2, h.1 (["a@1.0.0", "c@3.0.0"] ++ scenarioSiblings, []) h2⟩

/- ### Lemmas about sibling discovery -/

theorem length_filter_ne_name (ws : List (String × String)) (cur : String)
    (hnames : (ws.map Prod.fst).Nodup) (hmem : cur ∈ ws.map Prod.fst) :
    (ws.filter (fun w => w.1 != cur)).length = ws.length - 1 := by
  induction ws with
  | nil => simp at hmem
  | cons p rest ih =>
    simp only [List.map_cons, List.nodup_cons] at hnames
    rcases List.mem_cons.mp hmem with h1 | h2
    · have hall : ∀ w ∈ rest, (w.1 != cur) = true := by
        intro w hw
        have hne : w.1 ≠ cur := by
          intro hEq
          exact hnames.1 (h1 ▸ hEq ▸ List.mem_map_of_mem Prod.fst hw)
        simpa using hne
      rw [List.filter_cons]
      have : (p.1 != cur) = false := by simp [h1]
      rw [this]
      simp only [Bool.false_eq_true, if_neg]
      rw [List.filter_eq_self.mpr hall]
      simp
    · have hp : (p.1 != cur) = true := by
        have : p.1 ≠ cur := by
          intro hEq
          exact hnames.1 (hEq ▸ h2)
        simpa using this
      rw [List.filter_cons, hp]
      have hpos : 0 < rest.length := by
        cases rest with
        | nil => simp at h2
        | cons q qs => simp
      simp only [if_pos, List.length_cons]
      rw [ih hnames.2 h2]
      omega

/-- C3: on the success path, sibling discovery returns exactly the workspaces
of the resolved WorkspaceSet other than the current one — every returned
pattern arises from a non-current workspace rendered `name@resolvedVersion`,
every non-current workspace contributes its pattern, the current workspace's
own pattern is never returned, no pattern repeats, and exactly one member is
omitted. -/
theorem C3_sibling_discovery (ws : List (String × String)) (cur : String)
    (hnames : (ws.map Prod.fst).Nodup)
    (hmem : cur ∈ ws.map Prod.fst)
    (hinj : ∀ p ∈ ws, ∀ q ∈ ws, p.1 ++ "@" ++ p.2 = q.1 ++ "@" ++ q.2 → p = q) :
    (∀ x ∈ siblingWorkspacesOf ws cur, ∃ p, p ∈ ws ∧ p.1 ≠ cur ∧ x = p.1 ++ "@" ++ p.2)
    ∧ (∀ p ∈ ws, p.1 ≠ cur → (p.1 ++ "@" ++ p.2) ∈ siblingWorkspacesOf ws cur)
    ∧ (∀ p ∈ ws, p.1 = cur → (p.1 ++ "@" ++ p.2) ∉ siblingWorkspacesOf ws cur)
    ∧ (siblingWorkspacesOf ws cur).Nodup
    ∧ (siblingWorkspacesOf ws cur).length = ws.length - 1 := by
  have hwsnd : ws.Nodup := hnames.of_map
  refine ⟨?_, ?_, ?_, ?_, ?_⟩
  · intro x hx
    obtain ⟨p, hp, rfl⟩ := List.mem_map.mp hx
    have hpf := List.mem_filter.mp hp
    exact ⟨p, hpf.1, by simpa using hpf.2, rfl⟩
  · intro p hp hne
    exact List.mem_map_of_mem _ (List.mem_filter.mpr ⟨hp, by simpa using hne⟩)
  · intro p hp hcur hmemres
    obtain ⟨q, hq, hqne, hEq⟩ := by
      refine ?_
      exact (by
        obtain ⟨q, hqf, hEq⟩ := List.mem_map.mp hmemres
        have hqf' := List.mem_filter.mp hqf
        exact ⟨q, hqf'.1, by simpa using hqf'.2, hEq⟩ :
        ∃ q, q ∈ ws ∧ q.1 ≠ cur ∧ q.1 ++ "@" ++ q.2 = p.1 ++ "@" ++ p.2)
    have := hinj q hq p hp hEq
    subst this
    exact hqne hcur
  · refine List.Nodup.map_on ?_ (hwsnd.filter _)
    intro x hx y hy hEq
    exact hinj x (List.mem_filter.mp hx).1 y (List.mem_filter.mp hy).1 hEq
  · unfold siblingWorkspacesOf
    rw [List.length_map]
    exact length_filter_ne_name ws cur hnames hmem

theorem C3_sibling_discovery_witness :
    (∀ x ∈ siblingWorkspacesOf scenarioWorkspaces "b",
      ∃ p, p ∈ scenarioWorkspaces ∧ p.1 ≠ "b" ∧ x = p.1 ++ "@" ++ p.2)
    ∧ (∀ p ∈ scenarioWorkspaces, p.1 ≠ "b" →
        (p.1 ++ "@" ++ p.2) ∈ siblingWorkspacesOf scenarioWorkspaces "b")
    ∧ (∀ p ∈ scenarioWorkspaces, p.1 = "b" →
        (p.1 ++ "@" ++ p.2) ∉ siblingWorkspacesOf scenarioWorkspaces "b")
    ∧ (siblingWorkspacesOf scenarioWorkspaces "b").Nodup
    ∧ (siblingWorkspacesOf scenarioWorkspaces "b").length = scenarioWorkspaces.length - 1 :=
  C3_sibling_discovery scenarioWorkspaces "b" (by decide) (by decide) (by decide)

/- ### Lemmas about manifest folding -/

theorem reference_setBucket (m : Manifest) (t : DepType)
    (v : Option (List (String × String))) :
    (setBucket m t v).reference = m.reference := by
  cases t <;> rfl

theorem bucketEntries_setBucket_self (m : Manifest) (t t' : DepType) :
    bucketEntries (setBucket m t (some (bucketEntries m t))) t' = bucketEntries m t' := by
  cases t <;> cases t' <;> rfl

theorem bucketEntries_setReference (m : Manifest) (r : Option PackageReference)
    (t : DepType) :
    bucketEntries (setReference m r) t = bucketEntries m t := by
  cases t <;> rfl

theorem filter_bne_length_lt (l : List String) (a : String) (h : a ∈ l) :
    (l.filter (fun p => p != a)).length < l.length := by
  induction l with
  | nil => simp at h
  | cons x rest ih =>
    rcases List.mem_cons.mp h with rfl | hmem
    · rw [List.filter_cons]
      simp only [bne_self_eq_false, Bool.false_eq_true, if_false, List.length_cons]
      exact Nat.lt_succ_of_le (List.length_filter_le _ rest)
    · rw [List.filter_cons]
      cases hx : (x != a) with
      | true =>
        simp only [if_true, List.length_cons]
        exact Nat.succ_lt_succ (ih hmem)
      | false =>
        simp only [Bool.false_eq_true, if_false, List.length_cons]
        exact Nat.lt_succ_of_lt (ih hmem)

theorem filter_bne_filter_notmem (l : List String) (rest : List String) (s : String) :
    (l.filter (fun p => p != s)).filter (fun p => decide (p ∉ rest)) =
      l.filter (fun p => decide (p ∉ s :: rest)) := by
  simp only [List.filter_filter]
  apply List.filter_congr
  intro x _
  by_cases h1 : x = s <;> by_cases h2 : x ∈ rest <;> simp [h1, h2]

theorem stepReady_unpack (ctx : LinkCtx) (st : LinkState) (s : String)
    (h : stepReady ctx st s = true) :
    ∃ pkg, ctx.getResolvedPattern s = some pkg
      ∧ pkg.reference.isSome = true
      ∧ st.manifest.reference.isSome = true
      ∧ s ∈ st.patterns
      ∧ s ∉ refDeps st.manifest
      ∧ lookupDep
          (bucketEntries st.manifest
            ((depTypeOf ctx.rootPatternsToOrigin pkg.name).getD ctx.flagToOrigin))
          pkg.name ≠ some (getPatternVersion ctx.flags s pkg) := by
  unfold stepReady at h
  cases hres : ctx.getResolvedPattern s with
  | none => rw [hres] at h; simp at h
  | some pkg =>
    rw [hres] at h
    simp only [Bool.and_eq_true, decide_eq_true_eq] at h
    exact ⟨pkg, rfl, h.1.1.1.1, h.1.1.1.2, h.1.1.2, h.1.2, h.2⟩

theorem addSibling_spec (ctx : LinkCtx) (st : LinkState) (s : String)
    (h : stepReady ctx st s = true) :
    ∃ mout, addSibling ctx st s = Except.ok ⟨st.patterns.filter (fun p => p != s), mout⟩
      ∧ refDeps mout = refDeps st.manifest ++ [s]
      ∧ (∀ t, bucketEntries mout t = bucketEntries st.manifest t)
      ∧ mout.reference.isSome = true := by
  obtain ⟨pkg, hres, hpref, hmref, hmem, hnref, hlook⟩ := stepReady_unpack ctx st s h
  obtain ⟨pref, hprefEq⟩ := Option.isSome_iff_exists.mp hpref
  obtain ⟨mref, hmrefEq⟩ := Option.isSome_iff_exists.mp hmref
  have hlt : (st.patterns.filter (fun p => p != s)).length < st.patterns.length :=
    filter_bne_length_lt st.patterns s hmem
  have hpos : st.patterns.length - (st.patterns.filter (fun p => p != s)).length > 0 :=
    Nat.sub_pos_of_lt hlt
  have hm1ref : (setBucket st.manifest
      ((depTypeOf ctx.rootPatternsToOrigin pkg.name).getD ctx.flagToOrigin)
      (some (bucketEntries st.manifest
        ((depTypeOf ctx.rootPatternsToOrigin pkg.name).getD ctx.flagToOrigin)))).reference =
      some mref := by
    rw [reference_setBucket, hmrefEq]
  have hbeq : (lookupDep
      (bucketEntries st.manifest
        ((depTypeOf ctx.rootPatternsToOrigin pkg.name).getD ctx.flagToOrigin))
      pkg.name == some (getPatternVersion ctx.flags s pkg)) = false := by
    simpa using hlook
  refine ⟨setReference
      (setBucket st.manifest
        ((depTypeOf ctx.rootPatternsToOrigin pkg.name).getD ctx.flagToOrigin)
        (some (bucketEntries st.manifest
          ((depTypeOf ctx.rootPatternsToOrigin pkg.name).getD ctx.flagToOrigin))))
      (some ⟨mref.registry, mref.dependencies ++ [s]⟩), ?_, ?_, ?_, ?_⟩
  · simp only [addSibling, hres, hprefEq]
    rw [if_pos hpos, hbeq]
    simp only [Bool.false_eq_true, if_false]
    rw [hm1ref]
  · show refDeps (setReference _ (some ⟨mref.registry, mref.dependencies ++ [s]⟩)) = _
    have hrdm : refDeps st.manifest = mref.dependencies := by
      unfold refDeps
      rw [hmrefEq]
    rw [hrdm]
    rfl
  · intro t
    rw [bucketEntries_setReference, bucketEntries_setBucket_self]
  · rfl

theorem addAll_spec (ctx : LinkCtx) (S : List String) :
    ∀ st : LinkState, S.Nodup → (∀ s ∈ S, stepReady ctx st s = true) →
    ∃ mout, addAll ctx S st =
        Except.ok ⟨st.patterns.filter (fun p => decide (p ∉ S)), mout⟩
      ∧ refDeps mout = refDeps st.manifest ++ S
      ∧ (∀ t, bucketEntries mout t = bucketEntries st.manifest t) := by
  induction S with
  | nil =>
    intro st _ _
    refine ⟨st.manifest, ?_, by simp, fun t => rfl⟩
    have : st.patterns.filter (fun p => decide (p ∉ ([] : List String))) = st.patterns := by
      apply List.filter_eq_self.mpr
      intro a _
      simp
    rw [addAll, this]
  | cons s rest ih =>
    intro st hnd hready
    obtain ⟨mout1, hstep, hrd1, hbk1, hrs1⟩ := addSibling_spec ctx st s
      (hready s (List.mem_cons_self s rest))
    have hnd' := List.nodup_cons.mp hnd
    have hready' : ∀ x ∈ rest,
        stepReady ctx ⟨st.patterns.filter (fun p => p != s), mout1⟩ x = true := by
      intro x hx
      have hxs : x ≠ s := fun hEq => hnd'.1 (hEq ▸ hx)
      obtain ⟨pkgx, hresx, h1, _, h3, h4, h5⟩ := stepReady_unpack ctx st x
        (hready x (List.mem_cons_of_mem s hx))
      unfold stepReady
      rw [hresx]
      simp only [Bool.and_eq_true, decide_eq_true_eq]
      refine ⟨⟨⟨⟨h1, hrs1⟩, ?_⟩, ?_⟩, ?_⟩
      · exact List.mem_filter.mpr ⟨h3, by simpa using hxs⟩
      · rw [hrd1]
        simp only [List.mem_append, List.mem_singleton]
        rintro (hc | hc)
        · exact h4 hc
        · exact hxs hc
      · rw [hbk1]
        exact h5
    obtain ⟨mout, hall, hrd, hbk⟩ :=
      ih ⟨st.patterns.filter (fun p => p != s), mout1⟩ hnd'.2 hready'
    refine ⟨mout, ?_, ?_, ?_⟩
    · rw [addAll, hstep]
      calc (match Except.ok (⟨st.patterns.filter (fun p => p != s), mout1⟩ : LinkState) with
            | Except.error e => Except.error e
            | Except.ok st' => addAll ctx rest st')
          = addAll ctx rest ⟨st.patterns.filter (fun p => p != s), mout1⟩ := rfl
        _ = Except.ok ⟨(st.patterns.filter (fun p => p != s)).filter
              (fun p => decide (p ∉ rest)), mout⟩ := hall
        _ = Except.ok ⟨st.patterns.filter (fun p => decide (p ∉ s :: rest)), mout⟩ := by
              rw [filter_bne_filter_notmem]
    · rw [hrd]
      show refDeps mout1 ++ rest = _
      rw [hrd1, List.append_assoc, List.singleton_append]
    · intro t
      rw [hbk t]
      show bucketEntries mout1 t = _
      rw [hbk1 t]

/-- C1 (amended): for every non-root install target whose own resolved package
is found, folding removes every sibling pattern from the returned pattern list
(none remains, so no pattern can appear in both the list and the manifest
dependency map); every dependency bucket of the target manifest keeps exactly
its previous entries (the sibling is never inserted into the dependency map —
only the bucket itself is created when absent); and, provided the manifest did
not already record the sibling at its canonical version, the original sibling
pattern is appended exactly once to the target package's dependency-reference
backlink list. -/
theorem C1_fold_invariant (ctx : LinkCtx) (S P : List String) (cwdManifest m : Manifest)
    (hres : ctx.getResolvedPattern (cwdManifest.name ++ "@" ++ cwdManifest.version) = some m)
    (hnd : S.Nodup)
    (hready : ∀ s ∈ S, stepReady ctx ⟨P, m⟩ s = true) :
    ∃ Pout mout,
      preparePatternsForLinking ctx (some S) P cwdManifest false =
        Except.ok ⟨Pout, some mout, []⟩
      ∧ Pout = P.filter (fun p => decide (p ∉ S))
      ∧ (∀ s ∈ S, s ∉ Pout)
      ∧ (∀ s ∈ S, (refDeps mout).count s = 1)
      ∧ (∀ t, bucketEntries mout t = bucketEntries m t) := by
  obtain ⟨mout, hall, hrd, hbk⟩ := addAll_spec ctx S ⟨P, m⟩ hnd hready
  refine ⟨P.filter (fun p => decide (p ∉ S)), mout, ?_, rfl, ?_, ?_, hbk⟩
  · simp only [preparePatternsForLinking, Bool.false_eq_true, if_false, hres]
    rw [hall]
  · intro s hs hcontra
    have := (List.mem_filter.mp hcontra).2
    simp only [decide_eq_true_eq] at this
    exact this hs
  · intro s hs
    obtain ⟨_, _, _, _, _, hnref, _⟩ := stepReady_unpack ctx ⟨P, m⟩ s (hready s hs)
    rw [hrd, List.count_append]
    have h0 : (refDeps m).count s = 0 := List.count_eq_zero.mpr hnref
    rw [h0, List.count_eq_one_of_mem hnd hs]

theorem C1_fold_invariant_witness :
    ∃ Pout mout,
      preparePatternsForLinking scenarioCtx (some scenarioSiblings)
          ["a@1.0.0", "c@3.0.0"] manifestB false =
        Except.ok ⟨Pout, some mout, []⟩
      ∧ Pout = ["a@1.0.0", "c@3.0.0"].filter (fun p => decide (p ∉ scenarioSiblings))
      ∧ (∀ s ∈ scenarioSiblings, s ∉ Pout)
      ∧ (∀ s ∈ scenarioSiblings, (refDeps mout).count s = 1)
      ∧ (∀ t, bucketEntries mout t = bucketEntries manifestB t) :=
  C1_fold_invariant scenarioCtx scenarioSiblings ["a@1.0.0", "c@3.0.0"] manifestB manifestB
    rfl (by decide) (by decide)

end YarnIsolate
